import Mathlib

/-!
Verification of the GitHubScreenshoter program (src/main.py): a shallow
embedding of its text rasterizer (`create_image_from_text`), its retrying
listing fetch (`get_files_from_github`) and its recursive tree walk
(`process_files`), together with theorems settling the specification's
claims about them.

Modelling conventions: font metrics are a parameter `measure : String →
Nat × Nat` (Pillow's integer width/height of a rendered line); Python
float arithmetic on the average line height is idealised as exact
rational arithmetic (`ℚ`), with `int(...)` embedded as truncation toward
zero; network responses are supplied by environment functions; I/O is
recorded as a trace of events.
-/

namespace GHScreenshoter

/-! ## Configuration constants (src/main.py lines 8-16) -/

def OUTPUT_DIR : String := "screenshots"

def FILE_EXTENSIONS : List String :=
  [".txt", ".py", ".js", ".html", ".css", ".java", ".c", ".cpp", ".go",
   ".php", ".rb", ".rs", ".swift", ".kt", ".ts"]

def MAX_RETRIES : Nat := 3

def FONT_SIZE : Nat := 15

def PADDING : Nat := 20

def LINE_SPACING : Nat := 5

/-! ## Python string primitives used by the program -/

/-- Whitespace characters stripped by Python `str.strip()` (ASCII range). -/
def pyIsSpace (c : Char) : Bool :=
  c = ' ' || c = '\t' || c = '\n' || c = '\r' || c = '\x0b' || c = '\x0c'

/-- Truthiness of `content.strip()` in `process_files` line 115: true iff
the string holds at least one non-whitespace character. -/
def stripTruthy (s : String) : Bool :=
  s.data.any (fun c => !(pyIsSpace c))

/-- Line boundary characters recognised by Python `str.splitlines()`. -/
def isLineBoundary (c : Char) : Bool :=
  c = '\n' || c = '\r' || c = '\x0b' || c = '\x0c' || c = '\x1c' ||
  c = '\x1d' || c = '\x1e' || c = '\x85' || c = '\u2028' || c = '\u2029'

/-- Worker for `pySplitlines`: `acc` holds the current line reversed. -/
def splitlinesGo : List Char → List Char → List String
  | '\r' :: '\n' :: rest, acc => String.mk acc.reverse :: splitlinesGo rest []
  | c :: rest, acc =>
      if isLineBoundary c then String.mk acc.reverse :: splitlinesGo rest []
      else splitlinesGo rest (c :: acc)
  | [], [] => []
  | [], acc => [String.mk acc.reverse]

/-- Python `str.splitlines()` (src/main.py line 64): splits on line
boundaries, swallowing `\r\n` as one boundary; a trailing boundary does
not create an extra empty line; the empty string yields no lines. -/
def pySplitlines (s : String) : List String :=
  splitlinesGo s.data []

/-- Python `int(...)` on a float: truncation toward zero. -/
def pyTrunc (q : ℚ) : Int :=
  if 0 ≤ q then Int.floor q else -Int.floor (-q)

/-! ## Text rasterizer (src/main.py `create_image_from_text`, lines 50-99) -/

/-- Measured widths of the lines (the loop of lines 70-81, width part). -/
def lineWidths (measure : String → Nat × Nat) (lines : List String) : List Nat :=
  lines.map (fun l => (measure l).1)

/-- Measured heights of the lines (the loop of lines 70-81, height part:
`line_heights.append(line_height)`). -/
def lineHeights (measure : String → Nat × Nat) (lines : List String) : List Nat :=
  lines.map (fun l => (measure l).2)

/-- `max_width` after the measuring loop: running maximum starting at 0. -/
def maxLineWidth (measure : String → Nat × Nat) (lines : List String) : Nat :=
  (lineWidths measure lines).foldl max 0

/-- Line 84: `avg_line_height = sum(line_heights) / len(line_heights) if
line_heights else FONT_SIZE`. -/
def avgLineHeight (line_heights : List Nat) : ℚ :=
  if line_heights = [] then (FONT_SIZE : ℚ)
  else (line_heights.sum : ℚ) / (line_heights.length : ℚ)

/-- Line 85: `total_height = int((avg_line_height + LINE_SPACING) * len(lines))`. -/
def totalHeight (measure : String → Nat × Nat) (lines : List String) : Nat :=
  (pyTrunc ((avgLineHeight (lineHeights measure lines) + (LINE_SPACING : ℚ)) *
    (lines.length : ℚ))).toNat

/-- One `draw.text(...)` call (line 96): position, text and fill colour. -/
structure DrawCmd where
  x : ℚ
  y : ℚ
  text : String
  fill : String
deriving DecidableEq

/-- The draw calls of the loop at lines 94-97: line `i` is painted at
`x = PADDING`, `y = PADDING + i * (avg_line_height + LINE_SPACING)`. -/
def drawCmds (lines : List String) (avg : ℚ) : List DrawCmd :=
  ((List.range lines.length).zip lines).map
    (fun p => ⟨(PADDING : ℚ), (PADDING : ℚ) + (p.1 : ℚ) * (avg + (LINE_SPACING : ℚ)), p.2, "black"⟩)

/-- Everything `create_image_from_text` produces: the canvas (mode, size,
background), the sequence of draw calls, and the path the image is saved
to. The save at line 99 is unconditional, so every invocation yields a
`savedTo`. -/
structure RenderOutput where
  mode : String
  width : Nat
  height : Nat
  background : String
  cmds : List DrawCmd
  savedTo : String
deriving DecidableEq

/-- `create_image_from_text(content, output_path)` (lines 50-99), with the
font's metrics abstracted as `measure`. Width: line 87, height: line 88,
canvas: line 90, text loop: lines 94-97, save: line 99. -/
def create_image_from_text (measure : String → Nat × Nat) (content : String)
    (output_path : String) : RenderOutput :=
  let lines := pySplitlines content
  { mode := "RGB"
    width := maxLineWidth measure lines + PADDING * 2
    height := totalHeight measure lines + PADDING * 2
    background := "white"
    cmds := drawCmds lines (avgLineHeight (lineHeights measure lines))
    savedTo := output_path }

/-! ## GitHub API listing fetch (src/main.py `get_files_from_github`, lines 18-48) -/

/-- One entry of the JSON array returned by the listing endpoint, with the
fields the program reads: `type`, `name`, `download_url`, `url`. -/
structure FileInfo where
  ftype : String
  name : String
  download_url : String
  url : String
deriving DecidableEq

/-- Outcome of one `requests.get` on the listing URL: a 200 with a parsed
body, a non-200 status, or a raised `RequestException`. -/
inductive NetOutcome where
  | ok (body : List FileInfo)
  | httpFail (code : Nat) (text : String)
  | exn (msg : String)
deriving DecidableEq

def NetOutcome.isOk : NetOutcome → Bool
  | .ok _ => true
  | _ => false

/-- Observable steps of the fetch loop: an HTTP request with its headers,
or a `time.sleep` of the given number of seconds. -/
inductive FetchEvent where
  | request (url : String) (headers : List (String × String))
  | sleep (secs : Nat)
deriving DecidableEq

def FetchEvent.isRequest : FetchEvent → Bool
  | .request _ _ => true
  | _ => false

def FetchEvent.isSleep : FetchEvent → Bool
  | .sleep _ => true
  | _ => false

/-- Headers built at lines 29-31: the fixed `User-Agent` always, plus
`Authorization: token <t>` when the token is truthy (Python `if token:`
is false for `None` and for the empty string). -/
def listingHeaders : Option String → List (String × String)
  | none => [("User-Agent", "GitHubScreenshoter")]
  | some t =>
      if t = "" then [("User-Agent", "GitHubScreenshoter")]
      else [("User-Agent", "GitHubScreenshoter"), ("Authorization", "token " ++ t)]

/-- The retry loop of lines 33-48, from attempt index `attempt` up to
`retries` (Python `for attempt in range(retries)`): each iteration sends
one request; a 200 returns its parsed body at once; otherwise the loop
sleeps 1 second unless this was the last attempt, and falls through to
`return None`. `net k` is the outcome of the request made at attempt `k`. -/
def fetchGo (net : Nat → NetOutcome) (url : String) (token : Option String)
    (retries attempt : Nat) : Option (List FileInfo) × List FetchEvent :=
  if _h : attempt < retries then
    match net attempt with
    | .ok body => (some body, [.request url (listingHeaders token)])
    | _ =>
        let tail := fetchGo net url token retries (attempt + 1)
        (tail.1,
         .request url (listingHeaders token) ::
           ((if attempt < retries - 1 then [FetchEvent.sleep 1] else []) ++ tail.2))
  else (none, [])
termination_by retries - attempt
decreasing_by omega

/-- `get_files_from_github(url, token)` with the default `retries=MAX_RETRIES`. -/
def get_files_from_github (net : Nat → NetOutcome) (url : String)
    (token : Option String) : Option (List FileInfo) × List FetchEvent :=
  fetchGo net url token MAX_RETRIES 0

/-! ## Recursive tree walk (src/main.py `process_files`, lines 101-130) -/

/-- Python `str.endswith` over the characters of the strings. -/
def pyEndsWith (s suffix : String) : Bool :=
  List.isSuffixOf suffix.data s.data

/-- `os.path.join` for the shapes of path this program builds (no absolute
second component): joining with an empty accumulated path keeps the name,
joining onto a name inserts a separator, and `join(a, "")` is `a` with a
trailing separator. -/
def osJoin (a b : String) : String :=
  if a = "" then b
  else if b = "" then (if pyEndsWith a "/" then a else a ++ "/")
  else if pyEndsWith a "/" then a ++ b
  else a ++ "/" ++ b

/-- Headers of the raw-content download request, built at line 111: only
the fixed `User-Agent`, never an `Authorization` entry. -/
def downloadHeaders : List (String × String) :=
  [("User-Agent", "GitHubScreenshoter")]

/-- `any(file_info["name"].endswith(ext) for ext in FILE_EXTENSIONS)` (line 110). -/
def matchesExt (name : String) : Bool :=
  FILE_EXTENSIONS.any (fun ext => pyEndsWith name ext)

/-- Observable side effects of the walk: a raw-content GET with its
headers, the `os.makedirs`-if-missing of an output directory, and a
`create_image_from_text(content, path)` invocation (which writes the
image at `path`). -/
inductive Event where
  | contentRequest (url : String) (headers : List (String × String))
  | ensureDir (dir : String)
  | writeImage (path : String) (content : String)
deriving DecidableEq

/-- The environment the walk runs against: `listing url` is what
`get_files_from_github(url, token)` returns for a sub-directory, and
`download url` is the `(status_code, text)` of the raw-content GET. -/
structure Env where
  listing : String → Option (List FileInfo)
  download : String → Nat × String

/-- `process_files(files, token, path)` (lines 101-130) as the trace of
events it performs, in program order. A file entry with a matching
extension is downloaded (line 112); on a 200 with non-blank content the
output directory is ensured and the image rendered (lines 115-121). A
directory entry re-lists and recurses when the sub-listing is truthy —
`if sub_files:` at line 129 is false for both `None` and `[]`. `fuel`
bounds the directory recursion depth (the source assumes the remote tree
is finite; any `fuel` at least the tree's depth is exact). -/
def process_files (env : Env) (fuel : Nat) (files : List FileInfo)
    (token : Option String) (path : String) : List Event :=
  match files with
  | [] => []
  | f :: rest =>
      (if f.ftype = "file" ∧ matchesExt f.name = true then
        let resp := env.download f.download_url
        Event.contentRequest f.download_url downloadHeaders ::
          (if resp.1 = 200 then
            (if stripTruthy resp.2 then
              let output_dir := osJoin OUTPUT_DIR path
              [Event.ensureDir output_dir,
               Event.writeImage (osJoin output_dir (f.name ++ ".png")) resp.2]
            else [])
          else [])
      else if f.ftype = "dir" then
        let new_path := osJoin path f.name
        match env.listing f.url with
        | some subs =>
            if subs = [] then []
            else
              match fuel with
              | 0 => []
              | fuel' + 1 => process_files env fuel' subs token new_path
        | none => []
      else []) ++ process_files env fuel rest token path
termination_by (fuel, files.length)
decreasing_by
  all_goals simp_wf
  · omega
  · omega

/-- The guard at lines 144-146 of `main` (and the analogous one at line
129): processing happens only when the fetched listing is truthy; `None`
and the empty list both lead to no processing at all. -/
def runWithFiles (env : Env) (fuel : Nat) (files : Option (List FileInfo))
    (token : Option String) : List Event :=
  match files with
  | some fs => if fs = [] then [] else process_files env fuel fs token ""
  | none => []

/-- A small concrete remote tree for concrete runs: listing `u1` holds the
directory `utils` (listed at `u2`), which holds the file `helper.py`
downloadable at `d1`; listing `u3` is an empty directory; `d2` serves
whitespace-only content. -/
def sampleEnv : Env :=
  { listing := fun u =>
      if u = "u1" then some [⟨"dir", "utils", "", "u2"⟩]
      else if u = "u2" then some [⟨"file", "helper.py", "d1", ""⟩]
      else if u = "u3" then some []
      else none
    download := fun u =>
      if u = "d1" then (200, "x = 1\n")
      else if u = "d2" then (200, "  \n ") else (404, "not found") }

/-- A concrete network for concrete fetch runs: the first attempt fails
with a 500, the second succeeds with an empty listing. -/
def sampleNet : Nat → NetOutcome :=
  fun k => if k = 1 then NetOutcome.ok [] else NetOutcome.httpFail 500 "err"

/-- Unfolding: a successful attempt returns its body at once, after a
single request and no sleep. -/
theorem fetchGo_ok (net : Nat → NetOutcome) (url : String) (token : Option String)
    (retries attempt : Nat) (body : List FileInfo)
    (hlt : attempt < retries) (hnet : net attempt = NetOutcome.ok body) :
    fetchGo net url token retries attempt =
      (some body, [FetchEvent.request url (listingHeaders token)]) := by
  rw [fetchGo, dif_pos hlt, hnet]

/-- Unfolding: a failed attempt (non-200 status or raised exception)
requests, sleeps one second unless it was the last attempt, and continues
with the next attempt. -/
theorem fetchGo_fail (net : Nat → NetOutcome) (url : String) (token : Option String)
    (retries attempt : Nat)
    (hlt : attempt < retries) (hnet : (net attempt).isOk = false) :
    fetchGo net url token retries attempt =
      ((fetchGo net url token retries (attempt + 1)).1,
       FetchEvent.request url (listingHeaders token) ::
         ((if attempt < retries - 1 then [FetchEvent.sleep 1] else []) ++
          (fetchGo net url token retries (attempt + 1)).2)) := by
  rw [fetchGo, dif_pos hlt]
  rcases h : net attempt with body | ⟨code, text⟩ | msg
  · rw [h] at hnet; simp [NetOutcome.isOk] at hnet
  · rfl
  · rfl

/-- Unfolding: once the attempt index reaches the bound, the loop falls
through to `return None` with no further events. -/
theorem fetchGo_stop (net : Nat → NetOutcome) (url : String) (token : Option String)
    (retries attempt : Nat) (hge : ¬ attempt < retries) :
    fetchGo net url token retries attempt = (none, []) := by
  rw [fetchGo, dif_neg hge]

/-- Combined behaviour of the retry loop from any starting attempt: the
request count is bounded by the remaining attempts; once at least one
attempt runs, there is at least one request, exactly one fewer sleep than
requests, and the trace ends with a request; every sleep lasts 1 second;
if every remaining attempt fails the loop returns `none`; the first
successful attempt's body is returned after exactly the attempts up to
it; and every request goes to the loop's URL with the headers of lines
29-31. -/
theorem fetchGo_spec (net : Nat → NetOutcome) (url : String) (token : Option String) :
    ∀ n retries attempt, retries - attempt = n →
      ((fetchGo net url token retries attempt).2.countP FetchEvent.isRequest ≤
        retries - attempt) ∧
      (attempt < retries →
        1 ≤ (fetchGo net url token retries attempt).2.countP FetchEvent.isRequest ∧
        (fetchGo net url token retries attempt).2.countP FetchEvent.isSleep =
          (fetchGo net url token retries attempt).2.countP FetchEvent.isRequest - 1 ∧
        (fetchGo net url token retries attempt).2.getLast? =
          some (FetchEvent.request url (listingHeaders token))) ∧
      (∀ e ∈ (fetchGo net url token retries attempt).2, e.isSleep = true →
        e = FetchEvent.sleep 1) ∧
      ((∀ k, attempt ≤ k → k < retries → (net k).isOk = false) →
        (fetchGo net url token retries attempt).1 = none) ∧
      (∀ k body, attempt ≤ k → k < retries → net k = NetOutcome.ok body →
        (∀ j, attempt ≤ j → j < k → (net j).isOk = false) →
        (fetchGo net url token retries attempt).1 = some body ∧
        (fetchGo net url token retries attempt).2.countP FetchEvent.isRequest =
          k + 1 - attempt) ∧
      (∀ u h, FetchEvent.request u h ∈ (fetchGo net url token retries attempt).2 →
        u = url ∧ h = listingHeaders token) := by
  intro n
  induction n with
  | zero =>
      intro retries attempt hn
      have hge : ¬ attempt < retries := by omega
      rw [fetchGo_stop net url token retries attempt hge]
      refine ⟨by simp, fun h => absurd h hge, by simp, fun _ => rfl, ?_, by simp⟩
      intro k body hak hkr
      omega
  | succ n ihn =>
      intro retries attempt hn
      have hlt : attempt < retries := by omega
      by_cases hok : (net attempt).isOk = true
      · obtain ⟨body, hbody⟩ : ∃ body, net attempt = NetOutcome.ok body := by
          rcases h : net attempt with b | ⟨c, t⟩ | m
          · exact ⟨b, rfl⟩
          · rw [h] at hok; simp [NetOutcome.isOk] at hok
          · rw [h] at hok; simp [NetOutcome.isOk] at hok
        rw [fetchGo_ok net url token retries attempt body hlt hbody]
        refine ⟨?_, fun _ => ?_, ?_, ?_, ?_, ?_⟩
        · simp [List.countP_cons, FetchEvent.isRequest]; omega
        · refine ⟨by simp [List.countP_cons, FetchEvent.isRequest], ?_, by simp⟩
          simp [List.countP_cons, FetchEvent.isRequest, FetchEvent.isSleep]
        · intro e he hs
          simp at he
          rw [he] at hs
          simp [FetchEvent.isSleep] at hs
        · intro hall
          exact absurd (hall attempt le_rfl hlt) (by rw [hbody]; simp [NetOutcome.isOk])
        · intro k body' hak hkr hnetk hprior
          rcases Nat.eq_or_lt_of_le hak with heq | hgt
          · subst heq
            rw [hbody] at hnetk
            cases hnetk
            refine ⟨rfl, by simp [List.countP_cons, FetchEvent.isRequest]⟩
          · exact absurd (hprior attempt le_rfl hgt)
              (by rw [hbody]; simp [NetOutcome.isOk])
        · intro u h hu
          simp at hu
          exact ⟨hu.1, hu.2⟩
      · have hok' : (net attempt).isOk = false := by
          cases h : (net attempt).isOk
          · rfl
          · exact absurd h hok
        rw [fetchGo_fail net url token retries attempt hlt hok']
        obtain ⟨iha, ihb, ihc, ihd, ihe, ihf⟩ := ihn retries (attempt + 1) (by omega)
        simp only at *
        by_cases hlast : attempt < retries - 1
        · -- not the last attempt: a sleep happens and the loop continues
          have hlt' : attempt + 1 < retries := by omega
          obtain ⟨ihb1, ihb2, ihb3⟩ := ihb hlt'
          have htailne : (fetchGo net url token retries (attempt + 1)).2 ≠ [] := by
            intro hnil
            rw [hnil] at ihb1
            simp at ihb1
          rw [if_pos hlast]
          refine ⟨?_, fun _ => ?_, ?_, ?_, ?_, ?_⟩
          · simp only [List.countP_cons, List.countP_append]
            simp [FetchEvent.isRequest]
            omega
          · refine ⟨?_, ?_, ?_⟩
            · simp only [List.countP_cons, List.countP_append]
              simp [FetchEvent.isRequest]
            · simp only [List.countP_cons, List.countP_append]
              simp [FetchEvent.isRequest, FetchEvent.isSleep]
              omega
            · rw [List.getLast?_cons, List.getLast?_append_of_ne_nil _ htailne, ihb3]
              simp
          · intro e he hs
            rcases List.mem_cons.mp he with rfl | he2
            · simp [FetchEvent.isSleep] at hs
            · rcases List.mem_append.mp he2 with he3 | he3
              · simp at he3
                exact he3
              · exact ihc e he3 hs
          · intro hall
            exact ihd (fun k hk1 hk2 => hall k (by omega) hk2)
          · intro k body hak hkr hnetk hprior
            rcases Nat.eq_or_lt_of_le hak with heq | hgt
            · subst heq
              rw [hnetk] at hok'
              simp [NetOutcome.isOk] at hok'
            · obtain ⟨ihr, ihcount⟩ := ihe k body (by omega) hkr hnetk
                (fun j hj1 hj2 => hprior j (by omega) hj2)
              refine ⟨ihr, ?_⟩
              simp only [List.countP_cons, List.countP_append]
              simp [FetchEvent.isRequest, FetchEvent.isSleep]
              omega
          · intro u h hu
            rcases List.mem_cons.mp hu with heq | hu2
            · cases heq
              exact ⟨rfl, rfl⟩
            · rcases List.mem_append.mp hu2 with hu3 | hu3
              · simp at hu3
              · exact ihf u h hu3
        · -- the last attempt: no sleep, and the next iteration is vacuous
          have hstop : fetchGo net url token retries (attempt + 1) = (none, []) :=
            fetchGo_stop net url token retries (attempt + 1) (by omega)
          rw [if_neg hlast, hstop]
          simp only [List.nil_append, List.append_nil]
          refine ⟨?_, fun _ => ?_, ?_, ?_, ?_, ?_⟩
          · simp [List.countP_cons, FetchEvent.isRequest]
            omega
          · refine ⟨by simp [List.countP_cons, FetchEvent.isRequest], ?_, by simp⟩
            simp [List.countP_cons, FetchEvent.isRequest, FetchEvent.isSleep]
          · intro e he hs
            simp at he
            rw [he] at hs
            simp [FetchEvent.isSleep] at hs
          · intro _
            trivial
          · intro k body hak hkr hnetk hprior
            have hk : k = attempt := by omega
            subst hk
            rw [hnetk] at hok'
            simp [NetOutcome.isOk] at hok'
          · intro u h hu
            simp at hu
            exact ⟨hu.1, hu.2⟩

/-- The fetch trace strictly alternates: events at even positions are
requests, events at odd positions are sleeps — so sleeps happen between
consecutive attempts and only there. -/
theorem fetchGo_alternation (net : Nat → NetOutcome) (url : String)
    (token : Option String) :
    ∀ n retries attempt, retries - attempt = n →
      ∀ i e, (fetchGo net url token retries attempt).2[i]? = some e →
        (e.isRequest = true ↔ i % 2 = 0) := by
  intro n
  induction n with
  | zero =>
      intro retries attempt hn i e he
      rw [fetchGo_stop net url token retries attempt (by omega)] at he
      simp at he
  | succ n ihn =>
      intro retries attempt hn i e he
      have hlt : attempt < retries := by omega
      by_cases hok : (net attempt).isOk = true
      · obtain ⟨body, hbody⟩ : ∃ body, net attempt = NetOutcome.ok body := by
          rcases h : net attempt with b | ⟨c, t⟩ | m
          · exact ⟨b, rfl⟩
          · rw [h] at hok; simp [NetOutcome.isOk] at hok
          · rw [h] at hok; simp [NetOutcome.isOk] at hok
        rw [fetchGo_ok net url token retries attempt body hlt hbody] at he
        match i with
        | 0 =>
            simp at he
            subst he
            simp [FetchEvent.isRequest]
        | i + 1 => simp at he
      · have hok' : (net attempt).isOk = false := by
          cases h : (net attempt).isOk
          · rfl
          · exact absurd h hok
        rw [fetchGo_fail net url token retries attempt hlt hok'] at he
        by_cases hlast : attempt < retries - 1
        · rw [if_pos hlast] at he
          match i with
          | 0 =>
              simp at he
              subst he
              simp [FetchEvent.isRequest]
          | 1 =>
              simp at he
              subst he
              simp [FetchEvent.isSleep, FetchEvent.isRequest]
          | i + 2 =>
              simp only [List.cons_append, List.getElem?_cons_succ] at he
              have := ihn retries (attempt + 1) (by omega) i e he
              rw [this]
              omega
        · rw [if_neg hlast] at he
          have hstop : fetchGo net url token retries (attempt + 1) = (none, []) :=
            fetchGo_stop net url token retries (attempt + 1) (by omega)
          rw [hstop] at he
          simp only [List.nil_append, List.append_nil] at he
          match i with
          | 0 =>
              simp at he
              subst he
              simp [FetchEvent.isRequest]
          | i + 1 => simp at he

/-- Unfolding: an empty listing produces no events. -/
theorem process_files_nil (env : Env) (fuel : Nat) (token : Option String)
    (path : String) : process_files env fuel [] token path = [] := by
  rw [process_files]

/-- Unfolding: processing a non-empty listing handles the head entry and
then the tail, concatenating their traces. -/
theorem process_files_cons (env : Env) (fuel : Nat) (f : FileInfo)
    (rest : List FileInfo) (token : Option String) (path : String) :
    process_files env fuel (f :: rest) token path =
      (if f.ftype = "file" ∧ matchesExt f.name = true then
        Event.contentRequest f.download_url downloadHeaders ::
          (if (env.download f.download_url).1 = 200 then
            (if stripTruthy (env.download f.download_url).2 then
              [Event.ensureDir (osJoin OUTPUT_DIR path),
               Event.writeImage (osJoin (osJoin OUTPUT_DIR path) (f.name ++ ".png"))
                 (env.download f.download_url).2]
            else [])
          else [])
      else if f.ftype = "dir" then
        match env.listing f.url with
        | some subs =>
            if subs = [] then []
            else
              match fuel with
              | 0 => []
              | fuel' + 1 => process_files env fuel' subs token (osJoin path f.name)
        | none => []
      else []) ++ process_files env fuel rest token path := by
  rw [process_files]

/-- Inversion: an event of a non-empty walk either comes from the head
entry — as one of the four possible head effects — or from the tail. -/
theorem process_files_cons_mem (env : Env) (fuel : Nat) (f : FileInfo)
    (rest : List FileInfo) (token : Option String) (path : String) (e : Event)
    (he : e ∈ process_files env fuel (f :: rest) token path) :
    e = Event.contentRequest f.download_url downloadHeaders ∨
    e = Event.ensureDir (osJoin OUTPUT_DIR path) ∨
    (stripTruthy (env.download f.download_url).2 = true ∧
      e = Event.writeImage (osJoin (osJoin OUTPUT_DIR path) (f.name ++ ".png"))
            (env.download f.download_url).2) ∨
    (∃ subs fuel', fuel = fuel' + 1 ∧ env.listing f.url = some subs ∧
      e ∈ process_files env fuel' subs token (osJoin path f.name)) ∨
    e ∈ process_files env fuel rest token path := by
  rw [process_files_cons] at he
  rcases List.mem_append.mp he with h1 | h1
  · by_cases hf : f.ftype = "file" ∧ matchesExt f.name = true
    · rw [if_pos hf] at h1
      rcases List.mem_cons.mp h1 with h2 | h2
      · exact Or.inl h2
      · by_cases hs : (env.download f.download_url).1 = 200
        · rw [if_pos hs] at h2
          by_cases ht : stripTruthy (env.download f.download_url).2 = true
          · rw [if_pos ht] at h2
            rcases List.mem_cons.mp h2 with h3 | h3
            · exact Or.inr (Or.inl h3)
            · rcases List.mem_cons.mp h3 with h4 | h4
              · exact Or.inr (Or.inr (Or.inl ⟨ht, h4⟩))
              · simp at h4
          · rw [if_neg ht] at h2; simp at h2
        · rw [if_neg hs] at h2; simp at h2
    · rw [if_neg hf] at h1
      by_cases hd : f.ftype = "dir"
      · rw [if_pos hd] at h1
        cases hl : env.listing f.url with
        | none => simp only [hl] at h1; simp at h1
        | some subs =>
            simp only [hl] at h1
            by_cases hsub : subs = []
            · rw [if_pos hsub] at h1; simp at h1
            · rw [if_neg hsub] at h1
              cases fuel with
              | zero => simp at h1
              | succ fuel' =>
                  exact Or.inr (Or.inr (Or.inr (Or.inl ⟨subs, fuel', rfl, rfl, h1⟩)))
      · rw [if_neg hd] at h1; simp at h1
  · exact Or.inr (Or.inr (Or.inr (Or.inr h1)))

/-- Invariant of every walk trace: each content request carries exactly
the fixed download headers of line 111, and each rendered image has
content that passed the non-blank check of line 115. -/
theorem process_files_event_inv (env : Env) :
    ∀ fuel files token path e, e ∈ process_files env fuel files token path →
      (∀ u h, e = Event.contentRequest u h → h = downloadHeaders) ∧
      (∀ p c, e = Event.writeImage p c → stripTruthy c = true) := by
  intro fuel
  induction fuel using Nat.strong_induction_on with
  | _ fuel ih =>
      intro files
      induction files with
      | nil =>
          intro token path e he
          rw [process_files_nil] at he
          simp at he
      | cons f rest ihr =>
          intro token path e he
          rcases process_files_cons_mem env fuel f rest token path e he with
            h | h | ⟨ht, h⟩ | ⟨subs, fuel', rfl, hl, h⟩ | h
          · subst h
            refine ⟨fun u hdrs heq => ?_, fun p c heq => ?_⟩
            · cases heq; rfl
            · cases heq
          · subst h
            refine ⟨fun u hdrs heq => ?_, fun p c heq => ?_⟩
            · cases heq
            · cases heq
          · subst h
            refine ⟨fun u hdrs heq => ?_, fun p c heq => ?_⟩
            · cases heq
            · cases heq
              exact ht
          · exact ih fuel' (by omega) subs token (osJoin path f.name) e h
          · exact ihr token path e h

/-! ## Arithmetic facts about the layout computation -/

theorem pyTrunc_natCast (m : Nat) : pyTrunc (m : ℚ) = (m : ℤ) := by
  rw [pyTrunc, if_pos (by positivity)]
  exact_mod_cast Int.floor_natCast m

/-- For a non-empty list of integer heights, `(avg + spacing) * count` is
the integer `sum + spacing * count`: the division by the length cancels. -/
theorem avg_add_mul_len (hs : List Nat) (hne : hs ≠ []) :
    (avgLineHeight hs + (LINE_SPACING : ℚ)) * (hs.length : ℚ) =
      ((hs.sum + LINE_SPACING * hs.length : Nat) : ℚ) := by
  have hn : (hs.length : ℚ) ≠ 0 := by
    have : hs.length ≠ 0 := by
      intro h0
      exact hne (List.length_eq_zero.mp h0)
    exact_mod_cast this
  rw [avgLineHeight, if_neg hne]
  push_cast
  field_simp

/-- `total_height` in closed integer form: the measured heights' sum plus
`LINE_SPACING` per line; Python's `int(...)` truncation loses nothing. -/
theorem totalHeight_eq (measure : String → Nat × Nat) (lines : List String) :
    totalHeight measure lines =
      (lineHeights measure lines).sum + LINE_SPACING * lines.length := by
  rcases eq_or_ne lines [] with rfl | hne
  · simp [totalHeight, lineHeights, avgLineHeight, pyTrunc]
  · have hh : lineHeights measure lines ≠ [] := by
      simp [lineHeights, hne]
    have hlen : (lineHeights measure lines).length = lines.length := by
      simp [lineHeights]
    rw [totalHeight, ← hlen, avg_add_mul_len _ hh, pyTrunc_natCast,
      Int.toNat_natCast, hlen]

/-- `total_height` as an exact rational: `(avg + spacing) * count`. -/
theorem totalHeight_exact (measure : String → Nat × Nat) (lines : List String) :
    ((totalHeight measure lines : Nat) : ℚ) =
      (avgLineHeight (lineHeights measure lines) + (LINE_SPACING : ℚ)) *
        (lines.length : ℚ) := by
  rcases eq_or_ne lines [] with rfl | hne
  · simp [totalHeight, lineHeights, avgLineHeight, pyTrunc]
  · have hh : lineHeights measure lines ≠ [] := by
      simp [lineHeights, hne]
    have hlen : (lineHeights measure lines).length = lines.length := by
      simp [lineHeights]
    rw [← hlen, avg_add_mul_len _ hh, totalHeight_eq]
    push_cast
    simp [hlen]

/-! ## Claims about the rasterizer -/

/-- C2: for every text input, the canvas width equals the maximum measured
line width plus `2 * PADDING`, and the canvas height equals (average
measured line height + `LINE_SPACING`) times the line count plus
`2 * PADDING` — the latter in exact rational arithmetic, where the
`int(...)` of line 85 truncates an exact integer. -/
theorem canvas_dimensions (measure : String → Nat × Nat)
    (content output_path : String) :
    (create_image_from_text measure content output_path).width =
      maxLineWidth measure (pySplitlines content) + 2 * PADDING ∧
    ((create_image_from_text measure content output_path).height : ℚ) =
      (avgLineHeight (lineHeights measure (pySplitlines content)) + (LINE_SPACING : ℚ)) *
        ((pySplitlines content).length : ℚ) + 2 * (PADDING : ℚ) := by
  constructor
  · simp [create_image_from_text]
    ring
  · simp only [create_image_from_text]
    push_cast
    rw [totalHeight_exact]
    ring

/-- C1 counterexample: the claim's height bound fails. A one-line text
whose line measures an empty ink bounding box (as a line of spaces does
under `font.getbbox`) produces a canvas 45 pixels high, below the claimed
minimum `2 * PADDING + 1 * (FONT_SIZE + LINE_SPACING) = 60`. -/
theorem render_min_size_counterexample :
    (pySplitlines " ").length = 1 ∧
    (create_image_from_text (fun _ => (0, 0)) " " "out.png").height <
      2 * PADDING + (pySplitlines " ").length * (FONT_SIZE + LINE_SPACING) := by
  constructor
  · rfl
  · simp only [create_image_from_text]
    rw [totalHeight_eq]
    decide

/-- C1 (amended): for every text with at least one line the canvas width
is at least `2 * PADDING` and the height at least `2 * PADDING` plus the
line count times `LINE_SPACING`; the claimed bound with the nominal line
advance `FONT_SIZE + LINE_SPACING` holds whenever the average measured
line height is at least the nominal font size. -/
theorem render_min_size (measure : String → Nat × Nat)
    (content output_path : String)
    (hlines : 1 ≤ (pySplitlines content).length) :
    2 * PADDING ≤ (create_image_from_text measure content output_path).width ∧
    2 * PADDING + (pySplitlines content).length * LINE_SPACING ≤
      (create_image_from_text measure content output_path).height ∧
    ((FONT_SIZE : ℚ) ≤ avgLineHeight (lineHeights measure (pySplitlines content)) →
      2 * PADDING + (pySplitlines content).length * (FONT_SIZE + LINE_SPACING) ≤
        (create_image_from_text measure content output_path).height) := by
  refine ⟨?_, ?_, ?_⟩
  · simp [create_image_from_text, PADDING]
  · simp only [create_image_from_text]
    rw [totalHeight_eq]
    simp only [PADDING, LINE_SPACING]
    omega
  · intro havg
    have hne : pySplitlines content ≠ [] := by
      intro h0
      rw [h0] at hlines
      simp at hlines
    have hh : lineHeights measure (pySplitlines content) ≠ [] := by
      simp [lineHeights, hne]
    have hlen : (lineHeights measure (pySplitlines content)).length =
        (pySplitlines content).length := by
      simp [lineHeights]
    have hlenpos : (0 : ℚ) < ((lineHeights measure (pySplitlines content)).length : ℚ) := by
      rw [hlen]
      exact_mod_cast hlines
    rw [avgLineHeight, if_neg hh, le_div_iff₀ hlenpos] at havg
    have hsum : FONT_SIZE * (lineHeights measure (pySplitlines content)).length ≤
        (lineHeights measure (pySplitlines content)).sum := by
      exact_mod_cast havg
    rw [hlen] at hsum
    simp only [create_image_from_text]
    rw [totalHeight_eq]
    simp only [PADDING, LINE_SPACING, FONT_SIZE] at hsum ⊢
    omega

/-- Witness for C1 (amended) at a concrete input: two lines of text under
a metrics function measuring every line 15 pixels tall. -/
theorem render_min_size_witness :
    1 ≤ (pySplitlines "ab\ncd").length ∧
    2 * PADDING + (pySplitlines "ab\ncd").length * (FONT_SIZE + LINE_SPACING) ≤
      (create_image_from_text (fun _ => (16, 15)) "ab\ncd" "w.png").height :=
  ⟨by decide,
   (render_min_size (fun _ => (16, 15)) "ab\ncd" "w.png" (by decide)).2.2 (by
     show (FONT_SIZE : ℚ) ≤ avgLineHeight [15, 15]
     rw [avgLineHeight]
     norm_num [FONT_SIZE])⟩

/-- C7: when the text splits into zero lines the rasterizer falls back to
the nominal font size for the average line height, produces a canvas of
exactly `2 * PADDING` by `2 * PADDING`, and still saves the image to the
destination path. -/
theorem zero_lines_render (measure : String → Nat × Nat)
    (content output_path : String) (h : pySplitlines content = []) :
    avgLineHeight (lineHeights measure (pySplitlines content)) = (FONT_SIZE : ℚ) ∧
    (create_image_from_text measure content output_path).width = 2 * PADDING ∧
    (create_image_from_text measure content output_path).height = 2 * PADDING ∧
    (create_image_from_text measure content output_path).savedTo = output_path := by
  refine ⟨?_, ?_, ?_, rfl⟩
  · rw [h]
    simp [lineHeights, avgLineHeight]
  · simp only [create_image_from_text, h]
    simp [maxLineWidth, lineWidths]
    ring
  · simp only [create_image_from_text, h]
    rw [totalHeight_eq]
    simp [lineHeights, Nat.mul_comm]

/-- Witness for C7: the empty string has zero lines and renders to a
40 × 40 canvas saved at the requested path. -/
theorem zero_lines_render_witness :
    pySplitlines "" = [] ∧
    (create_image_from_text (fun _ => (0, 0)) "" "empty.png").height = 2 * PADDING ∧
    (create_image_from_text (fun _ => (0, 0)) "" "empty.png").savedTo = "empty.png" :=
  ⟨rfl,
   (zero_lines_render (fun _ => (0, 0)) "" "empty.png" rfl).2.2.1,
   (zero_lines_render (fun _ => (0, 0)) "" "empty.png" rfl).2.2.2⟩

/-- C8: the rendering is deterministic — the output is a function of the
text content and the face's metrics on its lines alone. Two metrics
functions that agree on every line of the content (same font loaded, same
metrics) yield identical canvases, draw calls and destination. -/
theorem render_deterministic (m₁ m₂ : String → Nat × Nat)
    (content output_path : String)
    (h : ∀ l ∈ pySplitlines content, m₁ l = m₂ l) :
    create_image_from_text m₁ content output_path =
      create_image_from_text m₂ content output_path := by
  have hW : lineWidths m₁ (pySplitlines content) = lineWidths m₂ (pySplitlines content) := by
    simp only [lineWidths]
    exact List.map_congr_left (fun l hl => by rw [h l hl])
  have hH : lineHeights m₁ (pySplitlines content) = lineHeights m₂ (pySplitlines content) := by
    simp only [lineHeights]
    exact List.map_congr_left (fun l hl => by rw [h l hl])
  simp only [create_image_from_text, maxLineWidth, totalHeight, hW, hH]

/-- Witness for C8: two metrics functions that agree on the single line
of `"a"` (but not elsewhere) render it identically. -/
theorem render_deterministic_witness :
    (∀ l ∈ pySplitlines "a",
      (fun (_ : String) => ((1 : Nat), (2 : Nat))) l =
        (fun s => if s = "zz" then ((0 : Nat), (0 : Nat)) else (1, 2)) l) ∧
    create_image_from_text (fun _ => (1, 2)) "a" "p.png" =
      create_image_from_text (fun s => if s = "zz" then (0, 0) else (1, 2)) "a" "p.png" :=
  ⟨by decide,
   render_deterministic (fun _ => (1, 2)) (fun s => if s = "zz" then (0, 0) else (1, 2))
     "a" "p.png" (by decide)⟩

/-! ## Claims about the tree walker and the listing fetch -/

/-- C4: for every listing URL the fetch makes at most `MAX_RETRIES = 3`
request attempts; it sleeps exactly 1 second between consecutive attempts
and never after the last (one fewer sleep than requests, requests at even
trace positions and sleeps at odd ones, the trace ending with a request);
it stops at the first successful attempt and returns its body after
exactly the attempts up to it; after all attempts fail it returns `None`;
and the caller treats `None` as no files. -/
theorem listing_retry_behavior (net : Nat → NetOutcome) (url : String)
    (token : Option String) :
    ((get_files_from_github net url token).2.countP FetchEvent.isRequest ≤ MAX_RETRIES) ∧
    ((get_files_from_github net url token).2.countP FetchEvent.isSleep =
      (get_files_from_github net url token).2.countP FetchEvent.isRequest - 1) ∧
    (∀ e ∈ (get_files_from_github net url token).2, e.isSleep = true →
      e = FetchEvent.sleep 1) ∧
    (∀ i e, (get_files_from_github net url token).2[i]? = some e →
      (e.isRequest = true ↔ i % 2 = 0)) ∧
    ((get_files_from_github net url token).2.getLast? =
      some (FetchEvent.request url (listingHeaders token))) ∧
    ((∀ k, k < MAX_RETRIES → (net k).isOk = false) →
      (get_files_from_github net url token).1 = none) ∧
    (∀ k body, k < MAX_RETRIES → net k = NetOutcome.ok body →
      (∀ j, j < k → (net j).isOk = false) →
      (get_files_from_github net url token).1 = some body ∧
      (get_files_from_github net url token).2.countP FetchEvent.isRequest = k + 1) ∧
    (∀ env fuel, runWithFiles env fuel none token = []) := by
  simp only [get_files_from_github]
  obtain ⟨ha, hb, hc, hd, he, hf⟩ :=
    fetchGo_spec net url token MAX_RETRIES MAX_RETRIES 0 (Nat.sub_zero _)
  have h03 : (0 : Nat) < MAX_RETRIES := by norm_num [MAX_RETRIES]
  obtain ⟨hb1, hb2, hb3⟩ := hb h03
  refine ⟨by simpa using ha, hb2, hc, ?_, hb3, ?_, ?_, fun env fuel => rfl⟩
  · intro i e hie
    exact fetchGo_alternation net url token MAX_RETRIES MAX_RETRIES 0
      (Nat.sub_zero _) i e hie
  · intro hall
    exact hd (fun k _ hk => hall k hk)
  · intro k body hk hnet hprior
    have := he k body (Nat.zero_le k) hk hnet (fun j _ hj => hprior j hj)
    simpa using this

/-- Witness for C4 at `sampleNet`: the first attempt fails and the second
succeeds, so the fetch returns that body after exactly two requests. -/
theorem listing_retry_behavior_witness :
    (get_files_from_github sampleNet "U" none).1 = some [] ∧
    (get_files_from_github sampleNet "U" none).2.countP FetchEvent.isRequest = 2 :=
  (listing_retry_behavior sampleNet "U" none).2.2.2.2.2.2.1 1 []
    (by norm_num [MAX_RETRIES]) (by norm_num [sampleNet])
    (fun j hj => by
      interval_cases j
      norm_num [sampleNet, NetOutcome.isOk])

/-- C3 counterexample: with a credential supplied, the raw-content
download request of the walk still carries no `Authorization` header, so
"an Authorization header is present iff a credential was supplied" fails
for download requests. -/
theorem request_headers_counterexample :
    Event.contentRequest "d1" downloadHeaders ∈
      process_files sampleEnv 1 [⟨"file", "helper.py", "d1", ""⟩]
        (some "secret") "src/utils" ∧
    (∀ q ∈ downloadHeaders, q.1 ≠ "Authorization") := by
  have htr : process_files sampleEnv 1 [⟨"file", "helper.py", "d1", ""⟩]
      (some "secret") "src/utils" =
      [Event.contentRequest "d1" downloadHeaders,
       Event.ensureDir "screenshots/src/utils",
       Event.writeImage "screenshots/src/utils/helper.py.png" "x = 1\n"] := by
    simp [process_files_cons, process_files_nil, sampleEnv, osJoin, OUTPUT_DIR,
      matchesExt, FILE_EXTENSIONS, downloadHeaders, stripTruthy, pyIsSpace, pyEndsWith]
    decide
  rw [htr]
  refine ⟨by simp, by decide⟩

/-- C3 (amended): every listing request carries the fixed `User-Agent`
and carries `Authorization: token <t>` exactly when a truthy (non-empty)
credential was supplied; every raw-content download request carries
exactly the fixed `User-Agent` and never any `Authorization` header. -/
theorem request_headers (net : Nat → NetOutcome) (url : String)
    (token : Option String) :
    (∀ u h, FetchEvent.request u h ∈ (get_files_from_github net url token).2 →
      u = url ∧ h = listingHeaders token) ∧
    (("User-Agent", "GitHubScreenshoter") ∈ listingHeaders token) ∧
    ((∃ t, token = some t ∧ t ≠ "" ∧
      ("Authorization", "token " ++ t) ∈ listingHeaders token) ↔
      (∃ t, token = some t ∧ t ≠ "")) ∧
    (∀ env fuel files tk path u h,
      Event.contentRequest u h ∈ process_files env fuel files tk path →
      h = downloadHeaders) ∧
    (∀ q ∈ downloadHeaders, q.1 ≠ "Authorization") := by
  refine ⟨?_, ?_, ?_, ?_, by decide⟩
  · simp only [get_files_from_github]
    exact (fetchGo_spec net url token MAX_RETRIES MAX_RETRIES 0 (Nat.sub_zero _)).2.2.2.2.2
  · rcases token with _ | t
    · simp [listingHeaders]
    · by_cases ht : t = "" <;> simp [listingHeaders, ht]
  · constructor
    · rintro ⟨t, ht1, ht2, -⟩
      exact ⟨t, ht1, ht2⟩
    · rintro ⟨t, rfl, ht⟩
      exact ⟨t, rfl, ht, by simp [listingHeaders, ht]⟩
  · intro env fuel files tk path u h hmem
    exact (process_files_event_inv env fuel files tk path _ hmem).1 u h rfl

/-- Witness for C3 (amended): a non-empty credential makes the
Authorization header appear in the listing headers. -/
theorem request_headers_witness :
    ∃ t, (some "abc" : Option String) = some t ∧ t ≠ "" ∧
      ("Authorization", "token " ++ t) ∈ listingHeaders (some "abc") :=
  (request_headers (fun _ => NetOutcome.exn "e") "U" (some "abc")).2.2.1.mpr
    ⟨"abc", rfl, by decide⟩

/-- C5: a matching file entry whose downloaded content is blank produces
only its download request — no output directory is ensured and no image
is written for it; and in any walk whatsoever an image is written only
for content containing at least one non-whitespace character. -/
theorem blank_content_no_image (env : Env) (fuel : Nat) (f : FileInfo)
    (token : Option String) (path : String)
    (hfile : f.ftype = "file") (hext : matchesExt f.name = true)
    (hok : (env.download f.download_url).1 = 200)
    (hblank : stripTruthy (env.download f.download_url).2 = false) :
    process_files env fuel [f] token path =
      [Event.contentRequest f.download_url downloadHeaders] ∧
    (∀ env2 fuel2 files2 token2 path2 p c,
      Event.writeImage p c ∈ process_files env2 fuel2 files2 token2 path2 →
      stripTruthy c = true) := by
  constructor
  · rw [process_files_cons, process_files_nil, if_pos ⟨hfile, hext⟩, if_pos hok,
      if_neg (by simp [hblank])]
    simp
  · intro env2 fuel2 files2 token2 path2 p c hmem
    exact (process_files_event_inv env2 fuel2 files2 token2 path2 _ hmem).2 p c rfl

/-- Witness for C5: the whitespace-only file served at `d2` yields only a
download request. -/
theorem blank_content_no_image_witness :
    process_files sampleEnv 1 [⟨"file", "notes.txt", "d2", ""⟩] none "" =
      [Event.contentRequest "d2" downloadHeaders] :=
  (blank_content_no_image sampleEnv 1 ⟨"file", "notes.txt", "d2", ""⟩ none ""
    rfl (by decide) (by decide) (by decide)).1

/-- C6: a file entry whose name matches no allow-listed extension
contributes nothing to the trace — no content request and no image —
and processing continues exactly as if the entry were absent. -/
theorem nonmatching_never_downloaded (env : Env) (fuel : Nat) (f : FileInfo)
    (rest : List FileInfo) (token : Option String) (path : String)
    (hfile : f.ftype = "file") (hext : matchesExt f.name = false) :
    process_files env fuel (f :: rest) token path =
      process_files env fuel rest token path := by
  rw [process_files_cons,
    if_neg (by rintro ⟨-, h2⟩; rw [hext] at h2; exact Bool.false_ne_true h2),
    if_neg (by rw [hfile]; decide)]
  simp

/-- Witness for C6: a Markdown file is skipped outright. -/
theorem nonmatching_never_downloaded_witness :
    process_files sampleEnv 1 [⟨"file", "README.md", "d1", ""⟩] none "" =
      process_files sampleEnv 1 [] none "" :=
  nonmatching_never_downloaded sampleEnv 1 ⟨"file", "README.md", "d1", ""⟩ [] none ""
    rfl (by decide)

/-- C9: a directory entry with a non-empty sub-listing makes the walk
recurse with the credential passed through and the directory name
appended to the accumulated relative path; concretely, a matching file
found under `src/utils` in `sampleEnv` is written to
`screenshots/src/utils/helper.py.png`, mirroring the source structure. -/
theorem dir_recursion_mirrors_structure :
    (∀ (env : Env) (fuel : Nat) (d : FileInfo) (rest : List FileInfo)
      (token : Option String) (path : String) (subs : List FileInfo),
      d.ftype = "dir" → env.listing d.url = some subs → subs ≠ [] →
      process_files env (fuel + 1) (d :: rest) token path =
        process_files env fuel subs token (osJoin path d.name) ++
          process_files env (fuel + 1) rest token path) ∧
    process_files sampleEnv 3 [⟨"dir", "src", "", "u1"⟩] none "" =
      [Event.contentRequest "d1" downloadHeaders,
       Event.ensureDir "screenshots/src/utils",
       Event.writeImage "screenshots/src/utils/helper.py.png" "x = 1\n"] := by
  constructor
  · intro env fuel d rest token path subs hdir hlist hne
    rw [process_files_cons,
      if_neg (by rintro ⟨h1, -⟩; rw [hdir] at h1; exact absurd h1 (by decide)),
      if_pos hdir]
    simp only [hlist]
    rw [if_neg hne]
  · simp [process_files_cons, process_files_nil, sampleEnv, osJoin, OUTPUT_DIR,
      matchesExt, FILE_EXTENSIONS, downloadHeaders, stripTruthy, pyIsSpace, pyEndsWith]
    decide

/-- Witness for C9's recursion step: the `utils` directory entry recurses
into its sub-listing with the path extended to `src/utils`. -/
theorem dir_recursion_witness :
    process_files sampleEnv 1 [⟨"dir", "utils", "", "u2"⟩] none "src" =
      process_files sampleEnv 0 [⟨"file", "helper.py", "d1", ""⟩] none
          (osJoin "src" "utils") ++
        process_files sampleEnv 1 [] none "src" :=
  dir_recursion_mirrors_structure.1 sampleEnv 0 ⟨"dir", "utils", "", "u2"⟩ [] none "src"
    [⟨"file", "helper.py", "d1", ""⟩] rfl (by decide) (by decide)

/-- C10: a directory entry whose sub-listing fetch returns an empty array
is treated exactly like one whose fetch failed with `None`: in both cases
the walk does not recurse and the entry contributes no events. -/
theorem empty_listing_like_failure (env : Env) (fuel : Nat) (d : FileInfo)
    (rest : List FileInfo) (token : Option String) (path : String)
    (hdir : d.ftype = "dir")
    (hlist : env.listing d.url = none ∨ env.listing d.url = some []) :
    process_files env fuel (d :: rest) token path =
      process_files env fuel rest token path := by
  rw [process_files_cons,
    if_neg (by rintro ⟨h1, -⟩; rw [hdir] at h1; exact absurd h1 (by decide)),
    if_pos hdir]
  rcases hlist with hl | hl <;> simp only [hl] <;> simp

/-- Witness for C10: the empty directory listed at `u3` contributes
nothing. -/
theorem empty_listing_like_failure_witness :
    process_files sampleEnv 2 [⟨"dir", "empty", "", "u3"⟩] none "" =
      process_files sampleEnv 2 [] none "" :=
  empty_listing_like_failure sampleEnv 2 ⟨"dir", "empty", "", "u3"⟩ [] none ""
    rfl (Or.inr (by decide))

end GHScreenshoter
